import Mathlib

set_option linter.unusedVariables false
set_option linter.unnecessarySeqFocus false

/-!
Verification of the in-guest process controller of this repository
(analyzer/windows/lib/api/process.py).

The Python class `Process` is embedded shallowly: its mutable instance
attributes become the record `ProcState`, every OS call (KERNEL32 and
NTDLL entry points) becomes an explicit oracle parameter recording the
value the OS would return, and every method becomes a pure function from
the old state and oracles to the result value, the new state, and a
record of the externally visible actions the method performed (handles
passed to CloseHandle, the injection strategy chosen, the bytes streamed
to the memory-dump sink, and so on). Numeric Windows constants that the
source imports from lib/common/defines.py (a file of this repository
that is not part of the sources given here) are modelled from the spec
with their standard Windows API values; where one of them matters to a
claim this is noted at its definition.
-/

namespace Cuckoo

/-- Modelled from the spec: lib/common/defines.py is not among the given
sources; MEM_COMMIT is the standard Windows commit-state flag tested by
dump_memory. -/
def MEM_COMMIT : Nat := 0x1000

/-- Modelled from the spec: standard Windows image-region type flag. -/
def MEM_IMAGE : Nat := 0x1000000

/-- Modelled from the spec: standard Windows mapped-region type flag. -/
def MEM_MAPPED : Nat := 0x40000

/-- Modelled from the spec: standard Windows private-region type flag. -/
def MEM_PRIVATE : Nat := 0x20000

/-- Modelled from the spec: standard Windows CREATE_NEW_CONSOLE creation flag. -/
def CREATE_NEW_CONSOLE : Nat := 0x10

/-- Modelled from the spec: standard Windows CREATE_SUSPENDED creation flag. -/
def CREATE_SUSPENDED : Nat := 0x4

/-- The mutable instance attributes of the Python class `Process`
(process.py, __init__): pid, process handle, thread id, thread handle and
the suspended flag.  Handles are numbers; 0 stands for both the Python
initial value 0 and None (both are falsy exactly like a NULL handle). -/
structure ProcState where
  pid : Nat
  h_process : Nat
  thread_id : Nat
  h_thread : Nat
  suspended : Bool
deriving Repr, DecidableEq

/-- Environment of `Process.open`: the agent pid (os.getpid()), the value
of KERNEL32.GetCurrentProcess() (the current-process pseudo-handle), and
the values OpenProcess/OpenThread would return for a given id (0 models a
NULL handle, i.e. failure). -/
structure OpenEnv where
  ownPid : Nat
  pseudoHandle : Nat
  openProcessRet : Nat → Nat
  openThreadRet : Nat → Nat

/-- Embedding of Process.open (process.py lines 75-94).  Returns the
boolean operation status and the updated state.  Mirrors the source: ret
starts as bool(pid or thread_id); each branch that runs sets ret = True,
even when the OS open call returned a NULL handle. -/
def Process.open_ (env : OpenEnv) (s : ProcState) : Bool × ProcState :=
  let ret0 := s.pid != 0 || s.thread_id != 0
  let r1 :=
    if s.pid != 0 && s.h_process == 0 then
      let h := if s.pid == env.ownPid then env.pseudoHandle else env.openProcessRet s.pid
      (true, { s with h_process := h })
    else (ret0, s)
  if r1.2.thread_id != 0 && r1.2.h_thread == 0 then
    (true, { r1.2 with h_thread := env.openThreadRet r1.2.thread_id })
  else r1

/-- Embedding of Process.close (process.py lines 96-111).  `closeHandleRet`
is the value CloseHandle would return for a handle (NT_SUCCESS is >= 0).
Returns the status, the new state, and the list of handles that were
passed to CloseHandle, in call order. -/
def Process.close (closeHandleRet : Nat → Int) (s : ProcState) :
    Bool × ProcState × List Nat :=
  let ret0 := s.h_process != 0 || s.h_thread != 0
  let r1 :=
    if s.h_process != 0 then
      (decide (0 ≤ closeHandleRet s.h_process), { s with h_process := 0 }, [s.h_process])
    else (ret0, s, ([] : List Nat))
  if r1.2.1.h_thread != 0 then
    (decide (0 ≤ closeHandleRet r1.2.1.h_thread), { r1.2.1 with h_thread := 0 },
      r1.2.2 ++ [r1.2.1.h_thread])
  else r1

/-- Embedding of Process.__del__ (process.py lines 63-68): the handles it
passes to CloseHandle.  The process handle is closed only when it differs
from KERNEL32.GetCurrentProcess(); the thread handle is closed whenever
it is nonzero. -/
def Process.del (env : OpenEnv) (s : ProcState) : List Nat :=
  (if s.h_process != 0 && s.h_process != env.pseudoHandle then [s.h_process] else []) ++
  (if s.h_thread != 0 then [s.h_thread] else [])

/-- The fields of PROCESS_INFORMATION filled by a successful CreateProcessA. -/
structure CreateResult where
  dwProcessId : Nat
  hProcess : Nat
  dwThreadId : Nat
  hThread : Nat
deriving Repr, DecidableEq

/-- Environment of Process.execute: the os.access(path, X_OK) oracle and
the CreateProcessA outcome (none models a falsy created value). -/
structure ExecuteEnv where
  accessOk : String → Bool
  createResult : Option CreateResult

/-- The CreateProcessA invocation Process.execute issues: application
path, built command line and creation flags. -/
structure CreateCall where
  appPath : String
  cmdLine : String
  creationFlags : Nat
deriving Repr, DecidableEq

/-- Embedding of Process.execute (process.py lines 202-254).  Note the
source sets self.suspended = True before calling CreateProcessA, so that
flag survives a creation failure. -/
def Process.execute (env : ExecuteEnv) (path : String) (args : Option String)
    (suspended : Bool) (s : ProcState) : Bool × ProcState × Option CreateCall :=
  if !env.accessOk path then (false, s, none)
  else
    let arguments := "\"" ++ path ++ "\" " ++ (match args with | some a => a | none => "")
    let creationFlags := CREATE_NEW_CONSOLE + (if suspended then CREATE_SUSPENDED else 0)
    let s1 := if suspended then { s with suspended := true } else s
    let call := some (CreateCall.mk path arguments creationFlags)
    match env.createResult with
    | some pi =>
        (true,
          { s1 with
              pid := pi.dwProcessId
              h_process := pi.hProcess
              thread_id := pi.dwThreadId
              h_thread := pi.hThread },
          call)
    | none => (false, s1, call)

/-- Externally visible steps of Process.resume: the fixed Sleep and the
ResumeThread call on the held thread handle. -/
inductive ResumeAction where
  | sleepMs (ms : Nat)
  | resumeThread (h : Nat)
deriving Repr, DecidableEq

/-- Embedding of Process.resume (process.py lines 256-276).
`resumeThreadRet` is the value ResumeThread would return (-1 is failure).
Returns the status, the new state, and the actions performed in order. -/
def Process.resume (resumeThreadRet : Int) (s : ProcState) :
    Bool × ProcState × List ResumeAction :=
  if !s.suspended then (false, s, [])
  else if s.h_thread == 0 then (false, s, [])
  else
    let acts := [ResumeAction.sleepMs 2000, ResumeAction.resumeThread s.h_thread]
    if resumeThreadRet != -1 then (true, { s with suspended := false }, acts)
    else (false, s, acts)

/-- C4 counterexample: a Process with pid 1234 (not the agent pid) whose
OpenProcess call fails (returns NULL): open() still returns true although
no handle was acquired, refuting "open() returns false whenever no handle
could be acquired". -/
theorem claim_C4_counterexample :
    (Process.open_ (OpenEnv.mk 1 7 (fun _ => 0) (fun _ => 0))
        (ProcState.mk 1234 0 0 0 false)).1 = true ∧
    (Process.open_ (OpenEnv.mk 1 7 (fun _ => 0) (fun _ => 0))
        (ProcState.mk 1234 0 0 0 false)).2.h_process = 0 :=
  ⟨rfl, rfl⟩

/-- C4 (amended): open() returns true exactly when a pid or thread id is
set; an OS-level open failure leaves the handle NULL but is not reflected
in the return value. -/
theorem claim_C4_amended (env : OpenEnv) (s : ProcState) :
    (Process.open_ env s).1 = (s.pid != 0 || s.thread_id != 0) := by
  obtain ⟨pid, hp, tid, hth, susp⟩ := s
  unfold Process.open_
  by_cases h1 : (pid != 0 && hp == 0) = true <;>
    by_cases h2 : (tid != 0 && hth == 0) = true <;>
      simp_all <;> split <;> simp_all <;> split <;> simp_all

/-- C3 counterexample: the agent opens a Process whose pid is its own pid,
receiving the current-process pseudo-handle (7 in this run); close() then
passes that pseudo-handle to CloseHandle, refuting "neither close() nor
destruction ever closes that pseudo-handle". -/
theorem claim_C3_counterexample :
    (Process.open_ (OpenEnv.mk 4242 7 (fun _ => 0) (fun _ => 0))
        (ProcState.mk 4242 0 0 0 false)).2.h_process = 7 ∧
    (Process.close (fun _ => 1)
        ((Process.open_ (OpenEnv.mk 4242 7 (fun _ => 0) (fun _ => 0))
          (ProcState.mk 4242 0 0 0 false)).2)).2.2 = [7] :=
  ⟨rfl, rfl⟩

/-- C3 (amended): destruction (__del__) never passes the pseudo-handle to
CloseHandle, as long as the thread-handle slot does not alias it; close(),
however, passes a held pseudo process handle to CloseHandle like any other
handle. -/
theorem claim_C3_amended (env : OpenEnv) (closeHandleRet : Nat → Int) (s : ProcState)
    (ht : s.h_thread ≠ env.pseudoHandle) :
    env.pseudoHandle ∉ Process.del env s ∧
    (s.h_process = env.pseudoHandle → s.h_process ≠ 0 →
      env.pseudoHandle ∈ (Process.close closeHandleRet s).2.2) := by
  constructor
  · unfold Process.del
    intro hmem
    rcases List.mem_append.1 hmem with h | h
    · by_cases hc : (s.h_process != 0 && s.h_process != env.pseudoHandle) = true
      · rw [if_pos hc] at h
        simp only [List.mem_singleton] at h
        simp only [Bool.and_eq_true, bne_iff_ne, ne_eq] at hc
        exact hc.2 h.symm
      · rw [if_neg hc] at h
        exact absurd h (List.not_mem_nil _)
    · by_cases hc : (s.h_thread != 0) = true
      · rw [if_pos hc] at h
        simp only [List.mem_singleton] at h
        exact ht h.symm
      · rw [if_neg hc] at h
        exact absurd h (List.not_mem_nil _)
  · intro hps hnz
    unfold Process.close
    have hc : (s.h_process != 0) = true := by simp [hnz]
    simp only [hc, if_true]
    by_cases hth : (s.h_thread != 0) = true
    · simp [hth, hps]
    · simp [hth, hps]

/-- C3 witness: the amended C3 applied at the concrete state holding the
pseudo-handle 7 as process handle and no thread handle. -/
theorem claim_C3_witness :
    (7 : Nat) ∈ (Process.close (fun _ => 1) (ProcState.mk 4242 7 0 0 false)).2.2 :=
  (claim_C3_amended (OpenEnv.mk 4242 7 (fun _ => 0) (fun _ => 0)) (fun _ => 1)
      (ProcState.mk 4242 7 0 0 false) (by decide)).2 rfl (by decide)

/-- C5 counterexample: execute with suspended=True on an accessible path
whose CreateProcessA call fails returns false, yet the suspended flag has
been changed from false to true, refuting "no partial state is retained". -/
theorem claim_C5_counterexample :
    (Process.execute (ExecuteEnv.mk (fun _ => true) none) "C:\\sample.exe" none true
        (ProcState.mk 0 0 0 0 false)).1 = false ∧
    (Process.execute (ExecuteEnv.mk (fun _ => true) none) "C:\\sample.exe" none true
        (ProcState.mk 0 0 0 0 false)).2.1.suspended = true :=
  ⟨rfl, rfl⟩

/-- C5 (amended): when execute fails, pid, thread id and both handles are
unchanged; the suspended flag is unchanged on the access-check failure
path, but on a CreateProcessA failure it has already been set when the
call requested a suspended creation. -/
theorem claim_C5_amended (env : ExecuteEnv) (path : String) (args : Option String)
    (susp : Bool) (s : ProcState)
    (hfail : (Process.execute env path args susp s).1 = false) :
    (Process.execute env path args susp s).2.1.pid = s.pid ∧
    (Process.execute env path args susp s).2.1.h_process = s.h_process ∧
    (Process.execute env path args susp s).2.1.thread_id = s.thread_id ∧
    (Process.execute env path args susp s).2.1.h_thread = s.h_thread ∧
    (Process.execute env path args susp s).2.1.suspended =
      (if env.accessOk path then susp || s.suspended else s.suspended) := by
  unfold Process.execute at *
  by_cases ha : env.accessOk path
  · simp only [ha, Bool.not_true, Bool.false_eq_true, if_false, if_true] at *
    cases hc : env.createResult with
    | some pi => rw [hc] at hfail; simp at hfail
    | none =>
        rw [hc] at *
        cases susp <;> simp
  · simp [ha]

/-- C5 witness: the amended C5 applied at a concrete failing execute call
(access ok, CreateProcessA fails, suspended requested). -/
theorem claim_C5_witness :
    (Process.execute (ExecuteEnv.mk (fun _ => true) none) "C:\\a.exe" none true
        (ProcState.mk 5 6 7 8 false)).2.1.pid = 5 :=
  (claim_C5_amended (ExecuteEnv.mk (fun _ => true) none) "C:\\a.exe" none true
      (ProcState.mk 5 6 7 8 false) rfl).1

/-- C9: resume() fails with no state change and no OS interaction when the
process was not created suspended or no thread handle is held; otherwise
it first sleeps 2000 ms, then calls ResumeThread on the held handle, and
the suspended flag is cleared exactly when ResumeThread does not return
-1 (which is also exactly when resume() reports success). -/
theorem claim_C9 (resumeThreadRet : Int) (s : ProcState) :
    (¬ (s.suspended = true ∧ s.h_thread ≠ 0) →
        Process.resume resumeThreadRet s = (false, s, [])) ∧
    (s.suspended = true → s.h_thread ≠ 0 →
      (Process.resume resumeThreadRet s).2.2 =
          [ResumeAction.sleepMs 2000, ResumeAction.resumeThread s.h_thread] ∧
      (Process.resume resumeThreadRet s).1 = (resumeThreadRet != -1) ∧
      (Process.resume resumeThreadRet s).2.1.suspended = (resumeThreadRet == -1)) := by
  constructor
  · intro hnot
    unfold Process.resume
    by_cases hs : s.suspended = true
    · have hth : s.h_thread = 0 := by
        by_contra hth
        exact hnot ⟨hs, hth⟩
      simp [hs, hth]
    · simp_all
  · intro hs hth
    unfold Process.resume
    have hth' : (s.h_thread == 0) = false := by simp [hth]
    by_cases hr : (resumeThreadRet != -1) = true
    · simp [hs, hth', hr]
      simp only [bne_iff_ne, ne_eq] at hr
      simp [hr]
    · simp [hs, hth', hr]
      simp only [bne_iff_ne, ne_eq, not_not] at hr
      simp [hr, hs]

/-- C9 witness: the concrete suspended process with thread handle 5 and a
successful ResumeThread, run through C9. -/
theorem claim_C9_witness :
    (Process.resume 0 (ProcState.mk 1 0 0 5 true)).1 = ((0 : Int) != -1) :=
  ((claim_C9 0 (ProcState.mk 1 0 0 5 true)).2 rfl (by decide)).2.1

/-- The values Process.inject interpolates into the configuration file
that come from outside process.py: Config("analysis.conf") fields, the
constants PIPE, PATHS, SHUTDOWN_MUTEX and TERMINATE_EVENT from
lib/common/constants.py, os.getcwd(), and the class attribute
Process.startup_time.  Modelled from the spec: those modules are not
among the given sources, so they are opaque string/number parameters
here. -/
structure ConfigEnv where
  ip : String
  port : String
  pipe : String
  resultsRoot : String
  analyzerDir : String
  shutdownMutex : String
  terminateEventName : String
  startupTime : Nat
  forceSleepskipOpt : Option String

/-- The configuration file path built by Process.inject (process.py line
415): "C:\\%s.ini" % self.pid.  Note the source does not consult the temp
directory here. -/
def configPath (pid : Nat) : String := "C:\\" ++ toString pid ++ ".ini"

/-- The key=value records Process.inject writes (process.py lines
422-435), in write order.  The file consists of these pairs rendered one
per line as key=value. -/
def configPairs (cfg : ConfigEnv) (pid : Nat) (firstproc : Bool)
    (interest : String) (nosleepskip : Bool) : List (String × String) :=
  [("host-ip", cfg.ip),
   ("host-port", cfg.port),
   ("pipe", cfg.pipe),
   ("results", cfg.resultsRoot),
   ("analyzer", cfg.analyzerDir),
   ("first-process", if firstproc then "1" else "0"),
   ("startup-time", toString cfg.startupTime),
   ("file-of-interest", interest),
   ("shutdown-mutex", cfg.shutdownMutex),
   ("terminate-event", cfg.terminateEventName ++ toString pid)] ++
  (if nosleepskip then [("force-sleepskip", "0")]
   else
     match cfg.forceSleepskipOpt with
     | some v => [("force-sleepskip", v)]
     | none => [])

/-- A file system keyed by path, holding parsed configuration records.
open(path, "w") followed by the writes replaces the content at the path. -/
def writeConfigFile (fs : String → Option (List (String × String))) (pid : Nat)
    (pairs : List (String × String)) : String → Option (List (String × String)) :=
  fun p => if p = configPath pid then some pairs else fs p

/-- Outcomes of Process.old_inject (process.py lines 325-380): which
primitive failed or which injection mechanism was driven to completion. -/
inductive OldInjectOutcome where
  | allocFail
  | writeFail
  | apcNoThread
  | apcQueueFail
  | apcQueued
  | remoteThreadFail
  | remoteThreadCreated
deriving Repr, DecidableEq

/-- OS oracles used by Process.old_inject: the VirtualAllocEx result (0 =
failure), the WriteProcessMemory status, the QueueUserAPC status, and the
CreateRemoteThread handle (0 = failure). -/
structure OldInjectEnv where
  allocRet : Nat
  writeMemOk : Bool
  queueApcOk : Bool
  remoteThreadHandle : Nat
deriving Repr, DecidableEq

/-- Embedding of Process.old_inject (process.py lines 325-380): allocate
memory in the target, write the dll path, then either queue an APC on the
thread (when apc or self.suspended) or create a remote thread at the
LoadLibraryA entry point. -/
def Process.old_inject (env : OldInjectEnv) (s : ProcState) (dll : String)
    (apc : Bool) : Bool × OldInjectOutcome :=
  if env.allocRet == 0 then (false, .allocFail)
  else if !env.writeMemOk then (false, .writeFail)
  else if apc || s.suspended then
    if s.h_thread == 0 then (false, .apcNoThread)
    else if env.queueApcOk then (true, .apcQueued)
    else (false, .apcQueueFail)
  else
    if env.remoteThreadHandle == 0 then (false, .remoteThreadFail)
    else (true, .remoteThreadCreated)

/-- How Process.inject reported the loader exit code in the log: not at
all, as the informational "injected into suspended process" message (exit
code 1), or as an error carrying the exit code. -/
inductive LoaderReport where
  | noReport
  | infoSuspended
  | errorCode (c : Int)
deriving Repr, DecidableEq

/-- The injection mechanism Process.inject ended up driving: the external
loader subprocess with its exit code, or the in-process old_inject path. -/
inductive InjStrategy where
  | loaderCalled (exe : String) (exitCode : Int)
  | oldInjectUsed (outcome : OldInjectOutcome)
deriving Repr, DecidableEq

/-- Environment of Process.inject: liveness and bitness of the target (the
is_alive()/is_64bit() results), the randomize_dll outcome, the
os.path.exists oracle for the dll, presence of the two loader binaries,
the loader subprocess exit code, the configuration values and the
old_inject oracles. -/
structure InjectEnv where
  isAlive : Bool
  is64 : Bool
  randomize : String → String
  pathExists : String → Bool
  loaderX64Exists : Bool
  loader32Exists : Bool
  loaderRet : Int
  cfg : ConfigEnv
  oldEnv : OldInjectEnv

/-- Everything observable about one Process.inject call: the returned
status, the class-level first_process flag after the call, the written
configuration file (path and records; none when the call aborted before
the write), the injection mechanism driven (none when none was), and how
a loader exit code was logged. -/
structure InjectOutcome where
  ok : Bool
  firstAfter : Bool
  wroteConfig : Option (String × List (String × String))
  strategy : Option InjStrategy
  loaderReport : LoaderReport
deriving Repr, DecidableEq

/-- The dll path Process.inject settles on (process.py lines 402-408):
the explicit argument unless falsy, else the bitness-matched cuckoomon
name, joined under dll and passed through randomize_dll. -/
def injectChosenDll (env : InjectEnv) (dllArg : Option String) : String :=
  env.randomize ("dll\\" ++
    (match dllArg with
     | some d =>
         if d == "" then (if env.is64 then "cuckoomon_x64.dll" else "cuckoomon.dll") else d
     | none => if env.is64 then "cuckoomon_x64.dll" else "cuckoomon.dll"))

/-- Embedding of Process.inject (process.py lines 382-471).  `first` is
the class attribute Process.first_process before the call. -/
def Process.inject (env : InjectEnv) (s : ProcState) (first : Bool)
    (dllArg : Option String) (interest : String) (nosleepskip : Bool) : InjectOutcome :=
  if s.pid == 0 then InjectOutcome.mk false first none none .noReport
  else if !env.isAlive then InjectOutcome.mk false first none none .noReport
  else
    let dll := injectChosenDll env dllArg
    if dll == "" || !env.pathExists dll then InjectOutcome.mk false first none none .noReport
    else
      let wrote := some (configPath s.pid, configPairs env.cfg s.pid first interest nosleepskip)
      let firstAfter := if first then false else first
      if env.is64 then
        if env.loaderX64Exists then
          if env.loaderRet != 0 then
            InjectOutcome.mk false firstAfter wrote
              (some (.loaderCalled "bin/loader_x64.exe" env.loaderRet))
              (if env.loaderRet == 1 then .infoSuspended else .errorCode env.loaderRet)
          else
            InjectOutcome.mk true firstAfter wrote
              (some (.loaderCalled "bin/loader_x64.exe" env.loaderRet)) .noReport
        else InjectOutcome.mk false firstAfter wrote none .noReport
      else
        if env.loader32Exists then
          if env.loaderRet != 0 then
            InjectOutcome.mk false firstAfter wrote
              (some (.loaderCalled "bin/loader.exe" env.loaderRet))
              (if env.loaderRet == 1 then .infoSuspended else .errorCode env.loaderRet)
          else
            InjectOutcome.mk true firstAfter wrote
              (some (.loaderCalled "bin/loader.exe" env.loaderRet)) .noReport
        else
          let old := Process.old_inject env.oldEnv s dll (s.thread_id != 0 || s.suspended)
          InjectOutcome.mk old.1 firstAfter wrote (some (.oldInjectUsed old.2)) .noReport

/-- The guard conjunction under which Process.inject reaches the
configuration write: nonzero pid, a live target, and a usable dll path. -/
def injectReachesWrite (env : InjectEnv) (s : ProcState) (dllArg : Option String) : Bool :=
  !(s.pid == 0) && env.isAlive &&
    !(injectChosenDll env dllArg == "" || !env.pathExists (injectChosenDll env dllArg))

lemma reaches_components (env : InjectEnv) (s : ProcState) (dllArg : Option String)
    (h : injectReachesWrite env s dllArg = true) :
    (s.pid == 0) = false ∧ env.isAlive = true ∧
      (injectChosenDll env dllArg == "" ||
        !env.pathExists (injectChosenDll env dllArg)) = false := by
  unfold injectReachesWrite at h
  simp only [Bool.and_eq_true, Bool.not_eq_true'] at h
  exact ⟨h.1.1, h.1.2, h.2⟩

lemma inject_of_reaches (env : InjectEnv) (s : ProcState) (first : Bool)
    (dllArg : Option String) (interest : String) (ns : Bool)
    (h : injectReachesWrite env s dllArg = true) :
    (Process.inject env s first dllArg interest ns).wroteConfig =
      some (configPath s.pid, configPairs env.cfg s.pid first interest ns) ∧
    (Process.inject env s first dllArg interest ns).firstAfter = false := by
  obtain ⟨h1, h2, h3⟩ := reaches_components env s dllArg h
  unfold Process.inject
  have hfa : (if first then false else first) = false := by cases first <;> rfl
  cases h64 : env.is64 <;>
    cases hl64 : env.loaderX64Exists <;>
      cases hl32 : env.loader32Exists <;>
        cases hret : env.loaderRet != 0 <;>
          simp [h1, h2, h3, h64, hl64, hl32, hret, hfa]

lemma inject_not_reaches (env : InjectEnv) (s : ProcState) (first : Bool)
    (dllArg : Option String) (interest : String) (ns : Bool)
    (h : injectReachesWrite env s dllArg = false) :
    (Process.inject env s first dllArg interest ns).wroteConfig = none ∧
    (Process.inject env s first dllArg interest ns).firstAfter = first := by
  unfold injectReachesWrite at h
  unfold Process.inject
  cases h1 : (s.pid == 0) with
  | true => simp [h1]
  | false =>
      cases h2 : env.isAlive with
      | false => simp [h1, h2]
      | true =>
          cases h3 : (injectChosenDll env dllArg == "" ||
              !env.pathExists (injectChosenDll env dllArg)) with
          | true => simp [h1, h2, h3]
          | false =>
              exfalso
              rw [h1, h3] at h
              simp [h2] at h

/-- The first-process value a call wrote: the lookup of first-process in
the written configuration records, none when no file was written. -/
def writtenFirstProc (o : InjectOutcome) : Option String :=
  match o.wroteConfig with
  | none => none
  | some w => w.2.lookup "first-process"

lemma configPairs_lookup_firstproc (cfg : ConfigEnv) (pid : Nat) (first : Bool)
    (interest : String) (ns : Bool) :
    (configPairs cfg pid first interest ns).lookup "first-process" =
      some (if first then "1" else "0") := rfl

/-- One recorded Process.inject invocation of a session: its environment,
target state and arguments.  The class attribute first_process is not
part of the call; it is threaded through the session. -/
structure InjCall where
  env : InjectEnv
  s : ProcState
  dllArg : Option String
  interest : String
  nosleepskip : Bool

/-- Run one recorded call against a given first_process flag value. -/
def runInject (c : InjCall) (first : Bool) : InjectOutcome :=
  Process.inject c.env c.s first c.dllArg c.interest c.nosleepskip

/-- Run a session: perform the calls in order, threading the class-level
first_process flag; returns the outcomes and the final flag value. -/
def injectSession : List InjCall → Bool → List InjectOutcome × Bool
  | [], first => ([], first)
  | c :: rest, first =>
    let o := runInject c first
    let r := injectSession rest o.firstAfter
    (o :: r.1, r.2)

lemma runInject_firstAfter_false (c : InjCall) :
    (runInject c false).firstAfter = false := by
  unfold runInject
  by_cases h : injectReachesWrite c.env c.s c.dllArg = true
  · exact (inject_of_reaches c.env c.s false c.dllArg c.interest c.nosleepskip h).2
  · exact (inject_not_reaches c.env c.s false c.dllArg c.interest c.nosleepskip
      (Bool.not_eq_true _ ▸ (Bool.eq_false_iff.2 h))).2

lemma injectSession_false_flag : ∀ calls : List InjCall,
    (injectSession calls false).2 = false := by
  intro calls
  induction calls with
  | nil => rfl
  | cons c rest ih =>
      show (injectSession rest (runInject c false).firstAfter).2 = false
      rw [runInject_firstAfter_false c]
      exact ih

lemma injectSession_false_values : ∀ calls : List InjCall,
    (∀ c ∈ calls, injectReachesWrite c.env c.s c.dllArg = true) →
    (injectSession calls false).1.map writtenFirstProc =
      List.replicate calls.length (some "0") := by
  intro calls
  induction calls with
  | nil => intro _; rfl
  | cons c rest ih =>
      intro h
      show writtenFirstProc (runInject c false) ::
          (injectSession rest (runInject c false).firstAfter).1.map writtenFirstProc =
        some "0" :: List.replicate rest.length (some "0")
      rw [runInject_firstAfter_false c]
      have hv : writtenFirstProc (runInject c false) = some "0" := by
        unfold writtenFirstProc runInject
        rw [(inject_of_reaches c.env c.s false c.dllArg c.interest c.nosleepskip
          (h c (List.mem_cons_self c rest))).1]
        exact configPairs_lookup_firstproc c.env.cfg c.s.pid false c.interest c.nosleepskip
      rw [hv, ih (fun x hx => h x (List.mem_cons_of_mem c hx))]

/-- C1: across any session of injections that each reach the
configuration-write step, starting with the class-level first_process
flag true, the first call writes first-process=1, every later call writes
first-process=0, and the flag is false after every nonempty prefix of the
session (so it transitions true to false exactly once and never returns
to true). -/
theorem claim_C1 (calls : List InjCall)
    (h : ∀ c ∈ calls, injectReachesWrite c.env c.s c.dllArg = true) :
    ((injectSession calls true).1.map writtenFirstProc =
      match calls with
      | [] => ([] : List (Option String))
      | _ :: rest => some "1" :: List.replicate rest.length (some "0")) ∧
    (∀ k, 0 < k → k ≤ calls.length →
      (injectSession (calls.take k) true).2 = false) := by
  cases calls with
  | nil =>
      refine ⟨rfl, ?_⟩
      intro k hk hlen
      exfalso
      simp at hlen
      omega
  | cons c rest =>
      have hc := h c (List.mem_cons_self c rest)
      have hrest : ∀ x ∈ rest, injectReachesWrite x.env x.s x.dllArg = true :=
        fun x hx => h x (List.mem_cons_of_mem c hx)
      have hfirst := inject_of_reaches c.env c.s true c.dllArg c.interest c.nosleepskip hc
      have hfa : (runInject c true).firstAfter = false := hfirst.2
      have h1 : writtenFirstProc (runInject c true) = some "1" := by
        unfold writtenFirstProc runInject
        rw [hfirst.1]
        exact configPairs_lookup_firstproc c.env.cfg c.s.pid true c.interest c.nosleepskip
      constructor
      · show writtenFirstProc (runInject c true) ::
            (injectSession rest (runInject c true).firstAfter).1.map writtenFirstProc =
          some "1" :: List.replicate rest.length (some "0")
        rw [hfa, h1, injectSession_false_values rest hrest]
      · intro k hk hlen
        obtain ⟨k, rfl⟩ : ∃ j, k = j + 1 := ⟨k - 1, by omega⟩
        show (injectSession (rest.take k) (runInject c true).firstAfter).2 = false
        rw [hfa]
        exact injectSession_false_flag (rest.take k)

/-- C1 witness: a concrete two-call session in which both calls reach the
configuration write; C1 yields the written values 1 then 0. -/
theorem claim_C1_witness :
    (injectSession
        [InjCall.mk
          (InjectEnv.mk true false (fun p => p) (fun _ => true) false true 0
            (ConfigEnv.mk "1.2.3.4" "2042" "pp" "rr" "aa" "mm" "te" 1200 none)
            (OldInjectEnv.mk 1 true true 1))
          (ProcState.mk 99 0 0 0 false) none "x" false,
         InjCall.mk
          (InjectEnv.mk true false (fun p => p) (fun _ => true) false true 0
            (ConfigEnv.mk "1.2.3.4" "2042" "pp" "rr" "aa" "mm" "te" 1200 none)
            (OldInjectEnv.mk 1 true true 1))
          (ProcState.mk 100 0 0 0 false) none "x" false] true).1.map writtenFirstProc =
      [some "1", some "0"] :=
  (claim_C1
    [InjCall.mk
      (InjectEnv.mk true false (fun p => p) (fun _ => true) false true 0
        (ConfigEnv.mk "1.2.3.4" "2042" "pp" "rr" "aa" "mm" "te" 1200 none)
        (OldInjectEnv.mk 1 true true 1))
      (ProcState.mk 99 0 0 0 false) none "x" false,
     InjCall.mk
      (InjectEnv.mk true false (fun p => p) (fun _ => true) false true 0
        (ConfigEnv.mk "1.2.3.4" "2042" "pp" "rr" "aa" "mm" "te" 1200 none)
        (OldInjectEnv.mk 1 true true 1))
      (ProcState.mk 100 0 0 0 false) none "x" false]
    (by decide)).1

/-- The required configuration keys of the InjectionConfig record (spec
section 3): host address, host port, pipe name, results root, analyzer
directory, first-process flag, startup time, file of interest, shutdown
mutex and per-pid terminate event. -/
def requiredKeys : List String :=
  ["host-ip", "host-port", "pipe", "results", "analyzer", "first-process",
   "startup-time", "file-of-interest", "shutdown-mutex", "terminate-event"]

/-- Modelled from the spec: sections 4.3 and 6 state the configuration
record is written to <temp>\<pid>.ini; this is that path for a given temp
directory value. -/
def specTempConfigPath (temp : String) (pid : Nat) : String :=
  temp ++ "\\" ++ toString pid ++ ".ini"

/-- C6 counterexample: the path the code builds for pid 1234 is
C:\1234.ini, which is not the spec path <temp>\1234.ini for the usual
temp directory; the source interpolates the pid into a fixed C:\ root and
never consults the temp directory. -/
theorem claim_C6_counterexample :
    configPath 1234 = "C:\\1234.ini" ∧
    configPath 1234 ≠ specTempConfigPath "C:\\Users\\user\\AppData\\Local\\Temp" 1234 := by
  exact ⟨rfl, by decide⟩

/-- C6 (amended): the injection configuration is written to C:\<pid>.ini
(a fixed root-drive path, not the temp directory); the write is in
overwrite mode, so writing twice for the same pid leaves exactly the
second record (never an append), and the written record always contains
every required key of the InjectionConfig record. -/
theorem claim_C6_amended (fs : String → Option (List (String × String)))
    (cfg : ConfigEnv) (pid : Nat) (f1 f2 : Bool) (i1 i2 : String) (n1 n2 : Bool) :
    writeConfigFile (writeConfigFile fs pid (configPairs cfg pid f1 i1 n1)) pid
        (configPairs cfg pid f2 i2 n2) =
      writeConfigFile fs pid (configPairs cfg pid f2 i2 n2) ∧
    writeConfigFile fs pid (configPairs cfg pid f2 i2 n2) (configPath pid) =
      some (configPairs cfg pid f2 i2 n2) ∧
    requiredKeys.all (fun k => ((configPairs cfg pid f2 i2 n2).lookup k).isSome) = true := by
  refine ⟨?_, ?_, ?_⟩
  · funext p
    unfold writeConfigFile
    by_cases hp : p = configPath pid <;> simp [hp]
  · unfold writeConfigFile
    simp
  · rfl

/-- C7: when inject delegates to the external helper loader (present for
the target bitness), the loader exit code is interpreted as: 0 means
success (inject returns true); 1 means injected into a process left
suspended, logged as informational but still not reported as success
(inject returns false); any other exit code is logged as an error and
inject returns false. -/
theorem claim_C7 (env : InjectEnv) (s : ProcState) (first : Bool)
    (dllArg : Option String) (interest : String) (ns : Bool)
    (hw : injectReachesWrite env s dllArg = true)
    (hex : (env.is64 = true → env.loaderX64Exists = true) ∧
           (env.is64 = false → env.loader32Exists = true)) :
    (env.loaderRet = 0 →
      (Process.inject env s first dllArg interest ns).ok = true) ∧
    (env.loaderRet = 1 →
      (Process.inject env s first dllArg interest ns).ok = false ∧
      (Process.inject env s first dllArg interest ns).loaderReport =
        LoaderReport.infoSuspended) ∧
    (env.loaderRet ≠ 0 → env.loaderRet ≠ 1 →
      (Process.inject env s first dllArg interest ns).ok = false ∧
      (Process.inject env s first dllArg interest ns).loaderReport =
        LoaderReport.errorCode env.loaderRet) := by
  obtain ⟨h1, h2, h3⟩ := reaches_components env s dllArg hw
  unfold Process.inject
  refine ⟨?_, ?_, ?_⟩
  · intro hr
    cases h64 : env.is64 with
    | false => simp [h1, h2, h3, h64, hex.2 h64, hr]
    | true => simp [h1, h2, h3, h64, hex.1 h64, hr]
  · intro hr
    cases h64 : env.is64 with
    | false => simp [h1, h2, h3, h64, hex.2 h64, hr]
    | true => simp [h1, h2, h3, h64, hex.1 h64, hr]
  · intro hr0 hr1
    have hb0 : (env.loaderRet != 0) = true := bne_iff_ne.mpr hr0
    have hb1 : (env.loaderRet == 1) = false := by
      simp only [beq_eq_false_iff_ne, ne_eq]
      exact hr1
    cases h64 : env.is64 with
    | false => simp [h1, h2, h3, h64, hex.2 h64, hb0, hb1]
    | true => simp [h1, h2, h3, h64, hex.1 h64, hb0, hb1]

/-- C7 witness: a concrete 32-bit target with the loader present and exit
code 0, run through C7. -/
theorem claim_C7_witness :
    (Process.inject
        (InjectEnv.mk true false (fun p => p) (fun _ => true) false true 0
          (ConfigEnv.mk "1.2.3.4" "2042" "pp" "rr" "aa" "mm" "te" 1200 none)
          (OldInjectEnv.mk 1 true true 1))
        (ProcState.mk 99 0 0 0 false) true none "x" false).ok = true :=
  (claim_C7
    (InjectEnv.mk true false (fun p => p) (fun _ => true) false true 0
      (ConfigEnv.mk "1.2.3.4" "2042" "pp" "rr" "aa" "mm" "te" 1200 none)
      (OldInjectEnv.mk 1 true true 1))
    (ProcState.mk 99 0 0 0 false) true none "x" false
    (by decide) (by decide)).1 rfl

/-- C8 counterexample: a live 64-bit target with a known thread id,
created suspended, with no x64 loader on disk: the claim demands APC
injection, but inject drives no injection mechanism at all (strategy is
none) and fails, even though the configuration write was reached. -/
theorem claim_C8_counterexample :
    (Process.inject
        (InjectEnv.mk true true (fun p => p) (fun _ => true) false false 0
          (ConfigEnv.mk "1.2.3.4" "2042" "pp" "rr" "aa" "mm" "te" 1200 none)
          (OldInjectEnv.mk 1 true true 1))
        (ProcState.mk 77 0 5 6 true) true none "x" false).strategy = none ∧
    (Process.inject
        (InjectEnv.mk true true (fun p => p) (fun _ => true) false false 0
          (ConfigEnv.mk "1.2.3.4" "2042" "pp" "rr" "aa" "mm" "te" 1200 none)
          (OldInjectEnv.mk 1 true true 1))
        (ProcState.mk 77 0 5 6 true) true none "x" false).ok = false ∧
    ((Process.inject
        (InjectEnv.mk true true (fun p => p) (fun _ => true) false false 0
          (ConfigEnv.mk "1.2.3.4" "2042" "pp" "rr" "aa" "mm" "te" 1200 none)
          (OldInjectEnv.mk 1 true true 1))
        (ProcState.mk 77 0 5 6 true) true none "x" false).wroteConfig).isSome = true :=
  ⟨rfl, rfl, rfl⟩

/-- C8 (amended): the no-loader fallback exists only for 32-bit targets:
there, with the allocation and memory write succeeding, a known thread id
or suspended creation selects APC injection (queuing on the open thread
handle) and otherwise a remote thread is created at the loader entry
point; for a 64-bit target with no x64 loader, inject fails and drives no
injection mechanism at all. -/
theorem claim_C8_amended (env : InjectEnv) (s : ProcState) (first : Bool)
    (dllArg : Option String) (interest : String) (ns : Bool)
    (hw : injectReachesWrite env s dllArg = true) :
    (env.is64 = false → env.loader32Exists = false →
      env.oldEnv.allocRet ≠ 0 → env.oldEnv.writeMemOk = true →
      ((s.thread_id ≠ 0 ∨ s.suspended = true) → s.h_thread ≠ 0 →
          env.oldEnv.queueApcOk = true →
          (Process.inject env s first dllArg interest ns).strategy =
            some (InjStrategy.oldInjectUsed OldInjectOutcome.apcQueued) ∧
          (Process.inject env s first dllArg interest ns).ok = true) ∧
      (s.thread_id = 0 → s.suspended = false →
          env.oldEnv.remoteThreadHandle ≠ 0 →
          (Process.inject env s first dllArg interest ns).strategy =
            some (InjStrategy.oldInjectUsed OldInjectOutcome.remoteThreadCreated) ∧
          (Process.inject env s first dllArg interest ns).ok = true)) ∧
    (env.is64 = true → env.loaderX64Exists = false →
      (Process.inject env s first dllArg interest ns).strategy = none ∧
      (Process.inject env s first dllArg interest ns).ok = false) := by
  obtain ⟨h1, h2, h3⟩ := reaches_components env s dllArg hw
  constructor
  · intro h64 hl32 halloc hwr
    have hba : (env.oldEnv.allocRet == 0) = false := by
      simp only [beq_eq_false_iff_ne, ne_eq]
      exact halloc
    constructor
    · intro happly hth hq
      have hac : (s.thread_id != 0 || s.suspended) = true := by
        rcases happly with h | h
        · simp [h]
        · simp [h]
      have hthb : (s.h_thread == 0) = false := by
        simp only [beq_eq_false_iff_ne, ne_eq]
        exact hth
      unfold Process.inject Process.old_inject
      simp [h1, h2, h3, h64, hl32, hba, hwr, hac, hthb, hq]
    · intro htid hsusp hrem
      have hac : (s.thread_id != 0 || s.suspended) = false := by
        simp [htid, hsusp]
      have hrb : (env.oldEnv.remoteThreadHandle == 0) = false := by
        simp only [beq_eq_false_iff_ne, ne_eq]
        exact hrem
      unfold Process.inject Process.old_inject
      simp [h1, h2, h3, h64, hl32, hba, hwr, hac, hrb, htid, hsusp]
  · intro h64 hl64
    unfold Process.inject
    simp [h1, h2, h3, h64, hl64]

/-- C8 witness: a concrete suspended 32-bit target with no loader and
working primitives, run through the amended C8: APC injection is chosen. -/
theorem claim_C8_witness :
    (Process.inject
        (InjectEnv.mk true false (fun p => p) (fun _ => true) false false 0
          (ConfigEnv.mk "1.2.3.4" "2042" "pp" "rr" "aa" "mm" "te" 1200 none)
          (OldInjectEnv.mk 1 true true 1))
        (ProcState.mk 88 0 5 6 true) true none "x" false).strategy =
      some (InjStrategy.oldInjectUsed OldInjectOutcome.apcQueued) :=
  (((claim_C8_amended
    (InjectEnv.mk true false (fun p => p) (fun _ => true) false false 0
      (ConfigEnv.mk "1.2.3.4" "2042" "pp" "rr" "aa" "mm" "te" 1200 none)
      (OldInjectEnv.mk 1 true true 1))
    (ProcState.mk 88 0 5 6 true) true none "x" false
    (by decide)).1 rfl rfl (by decide) rfl).1 (Or.inl (by decide)) (by decide) rfl).1

/-- Result of one VirtualQueryEx call in Process.dump_memory: failure
(the call returned less than sizeof(MEMORY_BASIC_INFORMATION)), or a
region with its State flags, Type flags, content bytes (RegionSize is the
content length) and whether ReadProcessMemory succeeds on it. -/
inductive QueryResult where
  | qfail
  | region (state ty : Nat) (data : List Nat) (readOk : Bool)

/-- The region filter of dump_memory (process.py lines 512-513):
mbi.State & MEM_COMMIT and mbi.Type & (MEM_IMAGE | MEM_MAPPED |
MEM_PRIVATE), both tested for truthiness. -/
def regionMatches (st ty : Nat) : Bool :=
  (st &&& MEM_COMMIT != 0) && (ty &&& (MEM_IMAGE ||| MEM_MAPPED ||| MEM_PRIVATE) != 0)

/-- The while loop of dump_memory (process.py lines 501-523) with an
explicit fuel argument: walk from mem to maxAddr; a failed query advances
by one page; a matching region is read and its bytes streamed (when
ReadProcessMemory succeeds) and the cursor advances by the region size;
any other region advances by one page.  Returns the streamed bytes in
order, or none when the fuel ran out before the walk finished. -/
def dumpLoop (Q : Nat → QueryResult) (page maxAddr : Nat) :
    Nat → Nat → Option (List Nat)
  | 0, mem => if mem < maxAddr then none else some []
  | fuel+1, mem =>
    if mem < maxAddr then
      match Q mem with
      | .qfail => dumpLoop Q page maxAddr fuel (mem + page)
      | .region st ty data readOk =>
        if regionMatches st ty then
          match dumpLoop Q page maxAddr fuel (mem + data.length) with
          | none => none
          | some out => some ((if readOk then data else []) ++ out)
        else dumpLoop Q page maxAddr fuel (mem + page)
    else some []

lemma dumpLoop_succ (Q : Nat → QueryResult) (page maxAddr f mem : Nat) :
    dumpLoop Q page maxAddr (f+1) mem =
      if mem < maxAddr then
        match Q mem with
        | .qfail => dumpLoop Q page maxAddr f (mem + page)
        | .region st ty data readOk =>
          if regionMatches st ty then
            match dumpLoop Q page maxAddr f (mem + data.length) with
            | none => none
            | some out => some ((if readOk then data else []) ++ out)
          else dumpLoop Q page maxAddr f (mem + page)
      else some [] := rfl

/-- The SYSTEM_INFO fields dump_memory reads: dwPageSize,
lpMinimumApplicationAddress and lpMaximumApplicationAddress. -/
structure SysInfo where
  pageSize : Nat
  minAddr : Nat
  maxAddr : Nat
deriving Repr, DecidableEq

/-- Embedding of Process.dump_memory (process.py lines 473-529): guard on
pid and liveness, then walk the address range streaming bytes to the
sink; the sink (a NetlogFile) is abstracted as the returned byte list.
The fuel maxAddr - minAddr bounds the loop; C10 shows it never runs out
when page size is positive and streamed regions are nonempty. -/
def Process.dump_memory (pid : Nat) (alive : Bool) (si : SysInfo)
    (Q : Nat → QueryResult) : Option (List Nat) :=
  if pid == 0 then none
  else if !alive then none
  else dumpLoop Q si.pageSize si.maxAddr (si.maxAddr - si.minAddr) si.minAddr

/-- One segment of a modelled address-space layout: a one-page hole where
VirtualQueryEx fails, or a region with flags, content and readability. -/
inductive Seg where
  | unreadable
  | reg (st ty : Nat) (data : List Nat) (readOk : Bool)

/-- Size in bytes a segment occupies in the address space. -/
def Seg.size (page : Nat) : Seg → Nat
  | .unreadable => page
  | .reg _ _ data _ => data.length

/-- Total size of a layout. -/
def segsSize (page : Nat) : List Seg → Nat
  | [] => 0
  | sg :: rest => sg.size page + segsSize page rest

/-- The VirtualQueryEx oracle a layout induces, mirroring the OS
semantics: querying at offset a inside a region reports the remaining
attributes and content of that region from a onward. -/
def layoutQuery (page : Nat) : List Seg → Nat → QueryResult
  | [], _ => .qfail
  | sg :: rest, a =>
    if a < sg.size page then
      match sg with
      | .unreadable => .qfail
      | .reg st ty data r => .region st ty (data.drop a) r
    else layoutQuery page rest (a - sg.size page)

/-- A segment is page-aligned: regions have a positive size that is a
multiple of the page size (the OS guarantee for VirtualQueryEx regions). -/
def segAligned (page : Nat) : Seg → Bool
  | .unreadable => true
  | .reg _ _ data _ => decide (page ∣ data.length) && decide (0 < data.length)

/-- All segments of a layout are page-aligned. -/
def segsAligned (page : Nat) (segs : List Seg) : Bool := segs.all (segAligned page)

/-- A segment is readable when it matters: every region passing the
dump filter has a succeeding ReadProcessMemory. -/
def segReadable : Seg → Bool
  | .unreadable => true
  | .reg st ty _ r => !regionMatches st ty || r

/-- All streamed regions of a layout are readable. -/
def segsReadable (segs : List Seg) : Bool := segs.all segReadable

/-- The bytes the dump loop streams over a layout, as the code computes
them (a matching but unreadable region contributes nothing). -/
def segsOutput : List Seg → List Nat
  | [] => []
  | .unreadable :: rest => segsOutput rest
  | .reg st ty data r :: rest =>
    if regionMatches st ty then (if r then data else []) ++ segsOutput rest
    else segsOutput rest

/-- The byte ranges of the committed image/mapped/private regions of a
layout, concatenated in address order — the N regions of the claim. -/
def matchedBytes : List Seg → List Nat
  | [] => []
  | .unreadable :: rest => matchedBytes rest
  | .reg st ty data _ :: rest =>
    if regionMatches st ty then data ++ matchedBytes rest
    else matchedBytes rest

/-- The sum of the sizes of the committed image/mapped/private regions. -/
def matchedSizeSum : List Seg → Nat
  | [] => 0
  | .unreadable :: rest => matchedSizeSum rest
  | .reg st ty data _ :: rest =>
    if regionMatches st ty then data.length + matchedSizeSum rest
    else matchedSizeSum rest

lemma segs_nil_of_size_zero (page : Nat) (hp : 0 < page) (segs : List Seg)
    (halign : segsAligned page segs = true) (h0 : segsSize page segs = 0) :
    segs = [] := by
  cases segs with
  | nil => rfl
  | cons sg rest =>
      exfalso
      cases sg with
      | unreadable =>
          have h : page + segsSize page rest = 0 := h0
          omega
      | reg st ty data r =>
          have h : data.length + segsSize page rest = 0 := h0
          simp only [segsAligned, List.all_cons, Bool.and_eq_true, segAligned,
            decide_eq_true_eq] at halign
          have := halign.1.2
          omega

lemma layoutQuery_cons_un (page : Nat) (rest : List Seg) (a : Nat) :
    layoutQuery page (Seg.unreadable :: rest) a =
      if a < page then QueryResult.qfail
      else layoutQuery page rest (a - page) := rfl

lemma layoutQuery_cons_reg (page st ty : Nat) (data : List Nat) (r : Bool)
    (rest : List Seg) (a : Nat) :
    layoutQuery page (Seg.reg st ty data r :: rest) a =
      if a < data.length then QueryResult.region st ty (data.drop a) r
      else layoutQuery page rest (a - data.length) := rfl

lemma layoutQuery_shift (page st ty : Nat) (data : List Nat) (r : Bool)
    (rest : List Seg) (j : Nat) (hj : page ≤ j) (hpn : page ≤ data.length) :
    layoutQuery page (Seg.reg st ty data r :: rest) j =
      layoutQuery page (Seg.reg st ty (data.drop page) r :: rest) (j - page) := by
  rw [layoutQuery_cons_reg, layoutQuery_cons_reg]
  simp only [List.length_drop]
  by_cases h : j < data.length
  · rw [if_pos h, if_pos (by omega)]
    rw [List.drop_drop]
    congr 2
    omega
  · rw [if_neg h, if_neg (by omega)]
    congr 1
    omega

lemma dumpLoop_layout (page : Nat) (hp : 0 < page) :
    ∀ (fuel : Nat) (segs : List Seg) (base : Nat) (Q : Nat → QueryResult),
      segsAligned page segs = true →
      (∀ a, base ≤ a → a < base + segsSize page segs →
        Q a = layoutQuery page segs (a - base)) →
      segsSize page segs ≤ fuel →
      dumpLoop Q page (base + segsSize page segs) fuel base = some (segsOutput segs) := by
  intro fuel
  induction fuel with
  | zero =>
      intro segs base Q halign hQ hfuel
      have h0 : segsSize page segs = 0 := Nat.le_zero.mp hfuel
      have hnil := segs_nil_of_size_zero page hp segs halign h0
      subst hnil
      show dumpLoop Q page (base + segsSize page ([] : List Seg)) 0 base = some []
      have hno : ¬ base < base + segsSize page ([] : List Seg) := by
        simp [segsSize]
      unfold dumpLoop
      rw [if_neg hno]
  | succ f ih =>
      intro segs base Q halign hQ hfuel
      cases segs with
      | nil =>
          rw [dumpLoop_succ]
          have hno : ¬ base < base + segsSize page ([] : List Seg) := by
            simp [segsSize]
          rw [if_neg hno]
          rfl
      | cons sg rest =>
          simp only [segsAligned, List.all_cons, Bool.and_eq_true] at halign
          obtain ⟨hal1, hal2⟩ := halign
          cases sg with
          | unreadable =>
              have hsz : segsSize page (Seg.unreadable :: rest) =
                  page + segsSize page rest := rfl
              have hcond : base < base + segsSize page (Seg.unreadable :: rest) := by
                rw [hsz]; omega
              have hfuel' : segsSize page rest ≤ f := by
                rw [hsz] at hfuel; omega
              have hq0 : Q base = QueryResult.qfail := by
                rw [hQ base (le_refl base) hcond, Nat.sub_self, layoutQuery_cons_un,
                  if_pos hp]
              rw [dumpLoop_succ, if_pos hcond, hq0]
              show dumpLoop Q page (base + segsSize page (Seg.unreadable :: rest)) f
                  (base + page) = some (segsOutput (Seg.unreadable :: rest))
              rw [show base + segsSize page (Seg.unreadable :: rest) =
                  (base + page) + segsSize page rest from by rw [hsz]; omega]
              show dumpLoop Q page ((base + page) + segsSize page rest) f (base + page) =
                some (segsOutput rest)
              apply ih rest (base + page) Q hal2 ?_ hfuel'
              intro a ha1 ha2
              rw [hQ a (by omega) (by rw [hsz]; omega), layoutQuery_cons_un,
                if_neg (by omega)]
              congr 1
              omega
          | reg st ty data r =>
              simp only [segAligned, Bool.and_eq_true, decide_eq_true_eq] at hal1
              obtain ⟨hdvd, hpos⟩ := hal1
              have hsz : segsSize page (Seg.reg st ty data r :: rest) =
                  data.length + segsSize page rest := rfl
              have hcond : base < base + segsSize page (Seg.reg st ty data r :: rest) := by
                rw [hsz]; omega
              have hq0 : Q base = QueryResult.region st ty data r := by
                rw [hQ base (le_refl base) hcond, Nat.sub_self, layoutQuery_cons_reg,
                  if_pos hpos, List.drop_zero]
              rw [dumpLoop_succ, if_pos hcond, hq0]
              show (if regionMatches st ty then
                  match dumpLoop Q page (base + segsSize page (Seg.reg st ty data r :: rest))
                      f (base + data.length) with
                  | none => none
                  | some out => some ((if r then data else []) ++ out)
                else dumpLoop Q page (base + segsSize page (Seg.reg st ty data r :: rest))
                  f (base + page)) = some (segsOutput (Seg.reg st ty data r :: rest))
              cases hm : regionMatches st ty with
              | true =>
                  rw [if_pos rfl]
                  have hrec : dumpLoop Q page
                      ((base + data.length) + segsSize page rest) f (base + data.length) =
                      some (segsOutput rest) := by
                    apply ih rest (base + data.length) Q hal2 ?_ (by rw [hsz] at hfuel; omega)
                    intro a ha1 ha2
                    rw [hQ a (by omega) (by rw [hsz]; omega), layoutQuery_cons_reg,
                      if_neg (by omega)]
                    congr 1
                    omega
                  rw [show base + segsSize page (Seg.reg st ty data r :: rest) =
                      (base + data.length) + segsSize page rest from by rw [hsz]; omega]
                  rw [hrec]
                  simp [segsOutput, hm]
              | false =>
                  rw [if_neg (by simp)]
                  have hple : page ≤ data.length := Nat.le_of_dvd hpos hdvd
                  rcases Nat.lt_or_ge page data.length with hlt | hge
                  · -- the skipped region still extends past this page
                    have hsz' : segsSize page (Seg.reg st ty (data.drop page) r :: rest) =
                        (data.length - page) + segsSize page rest := by
                      simp [segsSize, Seg.size, List.length_drop]
                    have halign' :
                        segsAligned page (Seg.reg st ty (data.drop page) r :: rest) = true := by
                      simp only [segsAligned, List.all_cons, Bool.and_eq_true]
                      refine ⟨?_, hal2⟩
                      simp only [segAligned, Bool.and_eq_true, decide_eq_true_eq,
                        List.length_drop]
                      exact ⟨Nat.dvd_sub' hdvd dvd_rfl, by omega⟩
                    have hQ' : ∀ a, base + page ≤ a →
                        a < (base + page) +
                          segsSize page (Seg.reg st ty (data.drop page) r :: rest) →
                        Q a = layoutQuery page (Seg.reg st ty (data.drop page) r :: rest)
                          (a - (base + page)) := by
                      intro a ha1 ha2
                      rw [hsz'] at ha2
                      rw [hQ a (by omega) (by rw [hsz]; omega)]
                      rw [show a - (base + page) = (a - base) - page from by omega]
                      exact layoutQuery_shift page st ty data r rest (a - base)
                        (by omega) hple
                    have hfuel' :
                        segsSize page (Seg.reg st ty (data.drop page) r :: rest) ≤ f := by
                      rw [hsz']
                      rw [hsz] at hfuel
                      omega
                    have hrec := ih (Seg.reg st ty (data.drop page) r :: rest)
                      (base + page) Q halign' hQ' hfuel'
                    rw [show base + segsSize page (Seg.reg st ty data r :: rest) =
                        (base + page) +
                          segsSize page (Seg.reg st ty (data.drop page) r :: rest) from by
                      rw [hsz, hsz']; omega]
                    rw [hrec]
                    have hout : segsOutput (Seg.reg st ty (data.drop page) r :: rest) =
                        segsOutput (Seg.reg st ty data r :: rest) := by
                      simp [segsOutput, hm]
                    rw [hout]
                  · -- the region is exactly one page
                    rw [show base + segsSize page (Seg.reg st ty data r :: rest) =
                        (base + page) + segsSize page rest from by rw [hsz]; omega]
                    have hrec : dumpLoop Q page ((base + page) + segsSize page rest) f
                        (base + page) = some (segsOutput rest) := by
                      apply ih rest (base + page) Q hal2 ?_ (by rw [hsz] at hfuel; omega)
                      intro a ha1 ha2
                      rw [hQ a (by omega) (by rw [hsz]; omega), layoutQuery_cons_reg,
                        if_neg (by omega)]
                      congr 1
                      omega
                    rw [hrec]
                    simp [segsOutput, hm]

lemma segsOutput_eq_matchedBytes (segs : List Seg)
    (hread : segsReadable segs = true) : segsOutput segs = matchedBytes segs := by
  induction segs with
  | nil => rfl
  | cons sg rest ih =>
      simp only [segsReadable, List.all_cons, Bool.and_eq_true] at hread
      cases sg with
      | unreadable =>
          show segsOutput rest = matchedBytes rest
          exact ih hread.2
      | reg st ty data r =>
          cases hm : regionMatches st ty with
          | false => simp [segsOutput, matchedBytes, hm, ih hread.2]
          | true =>
              have hr : r = true := by
                have := hread.1
                simp only [segReadable, hm, Bool.not_true, Bool.false_or] at this
                exact this
              simp [segsOutput, matchedBytes, hm, hr, ih hread.2]

lemma matchedBytes_length (segs : List Seg) :
    (matchedBytes segs).length = matchedSizeSum segs := by
  induction segs with
  | nil => rfl
  | cons sg rest ih =>
      cases sg with
      | unreadable => exact ih
      | reg st ty data r =>
          cases hm : regionMatches st ty with
          | false => simp [matchedBytes, matchedSizeSum, hm, ih]
          | true => simp [matchedBytes, matchedSizeSum, hm, ih]

/-- C2: over an address space laid out as page-aligned regions (with
possible one-page query-failure holes anywhere), dump_memory of a live
process streams exactly the byte ranges of the committed regions of type
image, mapped or private, in ascending address order, skipping all other
segments, and the total number of streamed bytes is the sum of those
regions' sizes; query-failure holes only advance the cursor by one page
and never abort the walk. -/
theorem claim_C2 (pid page base : Nat) (segs : List Seg)
    (hpid : pid ≠ 0) (hp : 0 < page)
    (halign : segsAligned page segs = true)
    (hread : segsReadable segs = true) :
    Process.dump_memory pid true (SysInfo.mk page base (base + segsSize page segs))
        (fun a => layoutQuery page segs (a - base)) = some (matchedBytes segs) ∧
    (matchedBytes segs).length = matchedSizeSum segs := by
  refine ⟨?_, matchedBytes_length segs⟩
  unfold Process.dump_memory
  have h1 : (pid == 0) = false := by simp [hpid]
  rw [h1]
  show dumpLoop (fun a => layoutQuery page segs (a - base)) page
      (base + segsSize page segs) ((base + segsSize page segs) - base) base =
    some (matchedBytes segs)
  rw [show (base + segsSize page segs) - base = segsSize page segs from by omega]
  rw [dumpLoop_layout page hp (segsSize page segs) segs base
    (fun a => layoutQuery page segs (a - base)) halign (fun a _ _ => rfl) (le_refl _)]
  rw [segsOutput_eq_matchedBytes segs hread]

/-- C2 witness: a three-segment layout (a matching committed image region
with byte 7, a query-failure hole, and a non-matching region with byte
9); the dump streams exactly [7]. -/
theorem claim_C2_witness :
    Process.dump_memory 1 true (SysInfo.mk 1 0 3)
        (fun a => layoutQuery 1
          [Seg.reg MEM_COMMIT MEM_IMAGE [7] true, Seg.unreadable,
           Seg.reg 0 0 [9] false] (a - 0)) = some [7] :=
  (claim_C2 1 1 0
    [Seg.reg MEM_COMMIT MEM_IMAGE [7] true, Seg.unreadable, Seg.reg 0 0 [9] false]
    (by decide) (by decide) (by decide) (by decide)).1

lemma dumpLoop_total (Q : Nat → QueryResult) (page maxAddr : Nat) (hp : 0 < page)
    (hpos : ∀ a st ty d r, Q a = QueryResult.region st ty d r →
      regionMatches st ty = true → 0 < d.length) :
    ∀ (fuel mem : Nat), maxAddr - mem ≤ fuel →
      (dumpLoop Q page maxAddr fuel mem).isSome = true := by
  intro fuel
  induction fuel with
  | zero =>
      intro mem h
      unfold dumpLoop
      rw [if_neg (by omega)]
      rfl
  | succ f ih =>
      intro mem h
      rw [dumpLoop_succ]
      by_cases hm : mem < maxAddr
      · rw [if_pos hm]
        cases hq : Q mem with
        | qfail => exact ih (mem + page) (by omega)
        | region st ty d r =>
            show (if regionMatches st ty then
                match dumpLoop Q page maxAddr f (mem + d.length) with
                | none => none
                | some out => some ((if r then d else []) ++ out)
              else dumpLoop Q page maxAddr f (mem + page)).isSome = true
            cases hmt : regionMatches st ty with
            | true =>
                rw [if_pos rfl]
                have hd := hpos mem st ty d r hq hmt
                have hrec := ih (mem + d.length) (by omega)
                cases hcase : dumpLoop Q page maxAddr f (mem + d.length) with
                | none => rw [hcase] at hrec; exact absurd hrec (by simp)
                | some out => rfl
            | false =>
                rw [if_neg (by simp)]
                exact ih (mem + page) (by omega)
      · rw [if_neg hm]
        rfl

/-- C10: whenever the system page size is positive and every region the
query oracle reports that passes the streaming filter has a positive
size, the dump_memory walk terminates: its loop, given fuel equal to the
address-range length, never exhausts it (every iteration advances the
cursor by the region size or by one page, both positive), so the dump of
a live process with a nonzero pid always produces a result. -/
theorem claim_C10 (pid : Nat) (si : SysInfo) (Q : Nat → QueryResult)
    (hpid : pid ≠ 0) (hp : 0 < si.pageSize)
    (hpos : ∀ a st ty d r, Q a = QueryResult.region st ty d r →
      regionMatches st ty = true → 0 < d.length) :
    (Process.dump_memory pid true si Q).isSome = true := by
  unfold Process.dump_memory
  have h1 : (pid == 0) = false := by simp [hpid]
  rw [h1]
  show (dumpLoop Q si.pageSize si.maxAddr (si.maxAddr - si.minAddr) si.minAddr).isSome = true
  exact dumpLoop_total Q si.pageSize si.maxAddr hp hpos (si.maxAddr - si.minAddr)
    si.minAddr (le_refl _)

/-- C10 witness: a two-page address range whose queries all fail still
terminates with an (empty) dump. -/
theorem claim_C10_witness :
    (Process.dump_memory 1 true (SysInfo.mk 1 0 2) (fun _ => QueryResult.qfail)).isSome =
      true :=
  claim_C10 1 (SysInfo.mk 1 0 2) (fun _ => QueryResult.qfail) (by decide) (by decide)
    (fun a st ty d r h _ => QueryResult.noConfusion h)

end Cuckoo
